import Mathlib

/-!
Shallow embedding of the text-selection painting subsystem of
crates/egui/src/text_selection/visuals.rs.

Geometry is modelled over the rationals (the source uses 32-bit floats); machine
floats appear in the source only as plain arithmetic and comparison, with the one
remainder operation modelled by the truncated remainder over the rationals.

The surrounding types (Galley, Row, Mesh, Arc, the painter, the style record)
live outside the translated file and are modelled from the spec, as marked on
each of their declarations.  The functions paint_text_selection, paint_cursor_end
and paint_text_cursor, and every step inside them, are translated from the source
file itself.
-/

namespace Egui

/-- Modelled from the spec: an opaque 32-bit colour value (the style service
supplies it; the painting code only moves it around). -/
abbrev Color32 := Nat

/-- Modelled from the spec: a 2D point/vector with rational coordinates. -/
abbrev V2 := Rat × Rat

/-- Helper mirroring the source constructor pos2(x, y). -/
def pos2 (x y : Rat) : V2 := (x, y)

/-- Modelled from the spec: an axis-aligned rectangle given by its min and max
corners. -/
structure Rect where
  min : V2
  max : V2
deriving DecidableEq, Repr

/-- Modelled from the spec: rectangle from min and max corners. -/
def Rect.from_min_max (mn mx : V2) : Rect := ⟨mn, mx⟩

/-- Modelled from the spec: the midpoint of the top edge. -/
def Rect.center_top (r : Rect) : V2 := ((r.min.1 + r.max.1) / 2, r.min.2)

/-- Modelled from the spec: the midpoint of the bottom edge. -/
def Rect.center_bottom (r : Rect) : V2 := ((r.min.1 + r.max.1) / 2, r.max.2)

/-- Modelled from the spec: one mesh vertex (position and colour). -/
structure Vertex where
  pos : V2
  color : Color32
deriving DecidableEq, Repr

/-- Modelled from the spec: a vertex buffer plus a triangle index buffer
(each triangle is 3 indices, a rectangle is 2 triangles = 6 indices). -/
structure Mesh where
  vertices : List Vertex
  indices : List Nat
deriving DecidableEq, Repr

/-- The six indices (two triangles) referencing four freshly pushed vertices
whose first one has index idx. -/
def six_indices (idx : Nat) : List Nat :=
  [idx, idx + 1, idx + 2, idx + 2, idx + 1, idx + 3]

/-- Modelled from the spec: the external mesh primitive
"append-colored-rectangle-as-two-triangles": pushes the four corner vertices
and six indices (two triangles) referencing them, at the end of the buffers. -/
def Mesh.add_colored_rect (m : Mesh) (r : Rect) (c : Color32) : Mesh :=
  { vertices := m.vertices ++
      [⟨r.min, c⟩, ⟨(r.max.1, r.min.2), c⟩, ⟨(r.min.1, r.max.2), c⟩, ⟨r.max, c⟩],
    indices := m.indices ++ six_indices m.vertices.length }

/-- Modelled from the spec: the external "bounding-box recomputation" mesh
primitive, folding the vertex positions into a bounding rectangle. -/
def Mesh.calc_bounds (m : Mesh) : Rect :=
  match m.vertices with
  | [] => ⟨(0, 0), (0, 0)⟩
  | v :: vs =>
    vs.foldl
      (fun r w =>
        ⟨(Min.min r.min.1 w.pos.1, Min.min r.min.2 w.pos.2),
         (Max.max r.max.1 w.pos.1, Max.max r.max.2 w.pos.2)⟩)
      ⟨v.pos, v.pos⟩

/-- One Vec::swap step on the index buffer: exchanges the entries at
positions i and j (both in range in every use below). -/
def vec_swap (l : List Nat) (i j : Nat) : List Nat :=
  (l.set i (l.getD j 0)).set j (l.getD i 0)

/-- The backward shift loop of paint_text_selection
(for i in (gis..num_indices_before).rev() swap(i, i+6)), recursing on the
number of remaining iterations: with count = k+1 the first executed swap is at
position gis+k, and the loop then continues downwards. -/
def shift_back (l : List Nat) (gis : Nat) : Nat → List Nat
  | 0 => l
  | k + 1 => shift_back (vec_swap l (gis + k) (gis + k + 6)) gis k

/-- The slice overwrite mesh.indices[start..start+repl.length].clone_from_slice(repl)
(in every use below the written range is inside the buffer). -/
def write_slice (l : List Nat) (start : Nat) (repl : List Nat) : List Nat :=
  l.take start ++ repl ++ l.drop (start + repl.length)

/-- Modelled from the spec: the per-row visuals: the row's draw mesh, its cached
bounding box, and the index-buffer offset where glyph triangles begin
(everything before this offset is background decoration). -/
structure RowVisuals where
  mesh : Mesh
  mesh_bounds : Rect
  glyph_index_start : Nat
deriving DecidableEq, Repr

/-- Modelled from the spec: one visual line of a galley.  x_offset is the
external text-layout lookup resolving a character column to its x position
within the row. -/
structure Row where
  x_offset : Nat → Rat
  size : V2
  ends_with_newline : Bool
  visuals : RowVisuals

/-- Row height, as in the source row.height() (the y component of its size). -/
def Row.height (r : Row) : Rat := r.size.2

instance : Inhabited Row :=
  ⟨{ x_offset := fun _ => 0, size := (0, 0), ends_with_newline := false,
     visuals := ⟨⟨[], []⟩, ⟨(0, 0), (0, 0)⟩, 0⟩ }⟩

/-- Modelled from the spec: a reference-counted shared handle (Arc).  The value
is what this handle currently points at; shared records whether other owners
hold the same allocation, which is what Arc::make_mut consults. -/
structure Arc (α : Type) where
  value : α
  shared : Bool

/-- Modelled from the spec: copy-on-write access.  Returns the value that the
caller may now mutate together with a flag recording whether obtaining it
required cloning (true exactly when the handle was shared); afterwards the
handle is exclusively owned, and any other owners keep the pre-call value. -/
def Arc.make_mut (a : Arc α) : α × Bool := (a.value, a.shared)

instance [Inhabited α] : Inhabited (Arc α) := ⟨⟨default, false⟩⟩

/-- Modelled from the spec: a row as placed in the galley; the source reads
galley.rows[ri].row through a shared handle. -/
structure PlacedRow where
  row : Arc Row
  pos : V2

instance : Inhabited PlacedRow := ⟨⟨default, (0, 0)⟩⟩

/-- Modelled from the spec: the (row index, column) pair produced by the
galley's cursor-to-layout lookup. -/
structure LayoutCursor where
  row : Nat
  column : Nat
deriving DecidableEq, Repr

/-- Modelled from the spec: a laid-out paragraph organized into an ordered
sequence of rows.  layout_from_cursor is the external text-layout lookup
resolving a character cursor to a (row, column) pair; layout_data stands for
the galley's remaining fields (layout job, overall bounds, counts), which the
selection painter never touches. -/
structure Galley where
  rows : List PlacedRow
  layout_from_cursor : Nat → LayoutCursor
  layout_data : Nat

/-- Modelled from the spec: a selection given by a pair of character-cursor
positions (anchor and head), each a character index into the galley text. -/
structure CCursorRange where
  anchor : Nat
  head : Nat
deriving DecidableEq, Repr

/-- Modelled from the spec: a selection is empty when anchor and head
coincide. -/
def CCursorRange.is_empty (r : CCursorRange) : Bool := r.anchor == r.head

/-- Modelled from the spec: the (min, max) cursor pair ordered by document
position. -/
def CCursorRange.sorted_cursors (r : CCursorRange) : Nat × Nat :=
  if r.anchor ≤ r.head then (r.anchor, r.head) else (r.head, r.anchor)

/-- Output record of paint_text_selection: for one row, the six index values of
the newly inserted selection-highlight triangles. -/
structure RowVertexIndices where
  row : Nat
  vertex_indices : List Nat
deriving DecidableEq, Repr

/-- Modelled from the spec: the slice of the style record supplying the
selection highlight fill colour. -/
structure Selection where
  bg_fill : Color32
deriving DecidableEq, Repr

/-- Modelled from the spec: stroke width and colour for painting lines. -/
structure Stroke where
  width : Rat
  color : Color32
deriving DecidableEq, Repr

/-- Modelled from the spec: the text-cursor style: its stroke, whether it
blinks, and the visible/invisible durations of the blink cycle. -/
structure TextCursorStyle where
  stroke : Stroke
  blink : Bool
  on_duration : Rat
  off_duration : Rat
deriving DecidableEq, Repr

/-- Modelled from the spec: the style record consulted by the painting code. -/
structure Visuals where
  selection : Selection
  text_cursor : TextCursorStyle
deriving DecidableEq, Repr

/-- Bookkeeping of the copy-on-write events performed by one call of
paint_text_selection: whether the galley handle had to be cloned, and, for
each processed row in order, whether that row's handle had to be cloned. -/
structure PaintEvents where
  galley_cloned : Bool
  rows_cloned : List Bool
deriving DecidableEq, Repr

/-- The left edge of the selection highlight on row ri (source lines 36-40). -/
def selection_left (row : Row) (ri : Nat) (mn : LayoutCursor) : Rat :=
  if ri == mn.row then row.x_offset mn.column else 0

/-- The right edge of the selection highlight on row ri (source lines 41-50). -/
def selection_right (row : Row) (ri : Nat) (mx : LayoutCursor) : Rat :=
  if ri == mx.row then row.x_offset mx.column
  else
    (let newline_size : Rat := if row.ends_with_newline then row.height / 2 else 0
     row.size.1 + newline_size)

/-- The highlight rectangle for row ri of a selection resolving to the layout
cursors mn and mx (source lines 36-52). -/
def selection_rect (row : Row) (ri : Nat) (mn mx : LayoutCursor) : Rect :=
  Rect.from_min_max (pos2 (selection_left row ri mn) 0)
    (pos2 (selection_right row ri mx) (row.size.2))

/-- The copy-out of the six newly appended indices (source lines 70-77):
reads the entries at positions start .. start+5 of the index buffer. -/
def copy_six (l : List Nat) (start : Nat) : List Nat :=
  [l.getD start 0,
   l.getD (start + 1) 0,
   l.getD (start + 2) 0,
   l.getD (start + 3) 0,
   l.getD (start + 4) 0,
   l.getD (start + 5) 0]

/-- The loop body of paint_text_selection acting on one (already exclusively
owned) row (source lines 36-87): computes the highlight rectangle, appends it
to the row mesh as two triangles, copies the six new indices out, shifts the
glyph indices six slots later, writes the six new indices at
glyph_index_start, and recomputes the mesh bounds.  Returns the updated row
together with the copied-out six indices (selection_triangles). -/
def paint_row (color : Color32) (row : Row) (ri : Nat) (mn mx : LayoutCursor) :
    Row × List Nat :=
  let rect := selection_rect row ri mn mx
  let mesh := row.visuals.mesh
  let glyph_index_start := row.visuals.glyph_index_start
  let num_indices_before := mesh.indices.length
  let mesh1 := mesh.add_colored_rect rect color
  let selection_triangles := copy_six mesh1.indices num_indices_before
  let mesh2 := { mesh1 with
    indices := shift_back mesh1.indices glyph_index_start
      (num_indices_before - glyph_index_start) }
  let mesh3 := { mesh2 with
    indices := write_slice mesh2.indices glyph_index_start selection_triangles }
  ({ row with visuals := { row.visuals with
      mesh := mesh3, mesh_bounds := mesh3.calc_bounds } },
   selection_triangles)

/-- One iteration of the row loop of paint_text_selection (source lines 33-95)
over the state (galley, optional output sink, row clone log): obtains the row
at index ri via Arc::make_mut, runs the loop body on it, stores the updated
row back, and, if a sink is supplied, pushes the (row, six indices) record. -/
def sel_step (color : Color32) (mn mx : LayoutCursor)
    (st : Galley × Option (List RowVertexIndices) × List Bool) (ri : Nat) :
    Galley × Option (List RowVertexIndices) × List Bool :=
  let g := st.1
  let pr := g.rows.getD ri default
  let rmk := Arc.make_mut pr.row
  let res := paint_row color rmk.1 ri mn mx
  ({ g with rows := g.rows.set ri { pr with row := ⟨res.1, false⟩ } },
   (st.2.1).map (fun v => v ++ [⟨ri, res.2⟩]),
   st.2.2 ++ [rmk.2])

/-- Translation of paint_text_selection (source lines 14-96).  The in-place
mutation of the Rust original is rendered by returning the new galley handle
and the new contents of the optional output sink; the copy-on-write events
(which in Rust decide whether Arc::make_mut clones) are returned as
PaintEvents. -/
def paint_text_selection (galley : Arc Galley) (visuals : Visuals)
    (cursor_range : CCursorRange)
    (new_vertex_indices : Option (List RowVertexIndices)) :
    Arc Galley × Option (List RowVertexIndices) × PaintEvents :=
  if cursor_range.is_empty then
    (galley, new_vertex_indices, ⟨false, []⟩)
  else
    let gmk := Arc.make_mut galley
    let g := gmk.1
    let color := visuals.selection.bg_fill
    let sc := cursor_range.sorted_cursors
    let mn := g.layout_from_cursor sc.1
    let mx := g.layout_from_cursor sc.2
    let st := (List.range' mn.row (mx.row + 1 - mn.row)).foldl
      (sel_step color mn mx) (g, new_vertex_indices, [])
    (⟨st.1, false⟩, st.2.1, ⟨gmk.2, st.2.2⟩)

/-- One line-segment draw command recorded by the painter model. -/
structure LineSegment where
  a : V2
  b : V2
  width : Rat
  color : Color32
deriving DecidableEq, Repr

/-- Modelled from the spec: the painter's draw target, as the list of draw
commands issued so far; line_segment appends one command. -/
abbrev Painter := List LineSegment

/-- Modelled from the spec: painter.line_segment([a, b], (width, color)). -/
def Painter.line_segment (p : Painter) (a b : V2) (width : Rat)
    (color : Color32) : Painter :=
  p ++ [⟨a, b, width, color⟩]

/-- Translation of paint_cursor_end (source lines 101-122), including its
false-guarded roof/floor branch. -/
def paint_cursor_end (painter : Painter) (visuals : Visuals)
    (cursor_rect : Rect) : Painter :=
  let stroke := visuals.text_cursor.stroke
  let top := cursor_rect.center_top
  let bottom := cursor_rect.center_bottom
  let painter1 := painter.line_segment top bottom stroke.width stroke.color
  if false then
    let extrusion : Rat := 3
    let width : Rat := 1
    let painter2 := painter1.line_segment (top.1 - extrusion, top.2)
      (top.1 + extrusion, top.2) width stroke.color
    painter2.line_segment (bottom.1 - extrusion, bottom.2)
      (bottom.1 + extrusion, bottom.2) width stroke.color
  else
    painter1

/-- Truncated (toward zero) integer part of a rational, as the float-to-float
remainder operator of the source truncates toward zero. -/
def ratTrunc (q : Rat) : Int := if 0 ≤ q then ⌊q⌋ else ⌈q⌉

/-- The remainder operation time_since_last_interaction % total_duration of the
source, over the rationals: a - b * trunc(a / b). -/
def fmod (a b : Rat) : Rat := a - b * (ratTrunc (a / b) : Rat)

/-- Translation of paint_text_cursor (source lines 125-151).  The style record
stands in for ui.visuals(); the painter's new command list is returned together
with the argument of the single request_repaint_after_secs call, if any. -/
def paint_text_cursor (visuals : Visuals) (painter : Painter)
    (primary_cursor_rect : Rect) (time_since_last_interaction : Rat) :
    Painter × Option Rat :=
  if visuals.text_cursor.blink then
    let on_duration := visuals.text_cursor.on_duration
    let off_duration := visuals.text_cursor.off_duration
    let total_duration := on_duration + off_duration
    let time_in_cycle := fmod time_since_last_interaction total_duration
    if time_in_cycle < on_duration then
      (paint_cursor_end painter visuals primary_cursor_rect,
       some (on_duration - time_in_cycle))
    else
      (painter, some (total_duration - time_in_cycle))
  else
    (paint_cursor_end painter visuals primary_cursor_rect, none)

/-!
Proof-layer definitions: names for intermediate values of paint_text_selection
(the resolved min/max layout cursors and the state after the row loop), the
per-row update it performs, and a list rotation used to describe the swap
loop.
-/

/-- One-position right rotation of a list (proof-layer helper describing what
six consecutive swaps do to the six freshly appended indices). -/
def rotr1 (l : List Nat) : List Nat :=
  match l.getLast? with
  | none => []
  | some y => y :: l.dropLast

/-- What one loop iteration does to the placed row it visits: replace its
shared row handle by an exclusively owned handle to the repainted row. -/
def row_update (color : Color32) (mn mx : LayoutCursor) (ri : Nat)
    (pr : PlacedRow) : PlacedRow :=
  { pr with row := ⟨(paint_row color pr.row.value ri mn mx).1, false⟩ }

/-- The layout cursor that the source binds to min: the sorted lower cursor
resolved through the galley's lookup. -/
def sel_mn (galley : Arc Galley) (r : CCursorRange) : LayoutCursor :=
  galley.value.layout_from_cursor r.sorted_cursors.1

/-- The layout cursor that the source binds to max: the sorted upper cursor
resolved through the galley's lookup. -/
def sel_mx (galley : Arc Galley) (r : CCursorRange) : LayoutCursor :=
  galley.value.layout_from_cursor r.sorted_cursors.2

/-- The full state (galley, sink, clone log) after the row loop of
paint_text_selection, for a non-empty selection. -/
def sel_state (galley : Arc Galley) (visuals : Visuals) (r : CCursorRange)
    (sink : Option (List RowVertexIndices)) :
    Galley × Option (List RowVertexIndices) × List Bool :=
  (List.range' (sel_mn galley r).row
      ((sel_mx galley r).row + 1 - (sel_mn galley r).row)).foldl
    (sel_step visuals.selection.bg_fill (sel_mn galley r) (sel_mx galley r))
    (galley.value, sink, [])

/-!
Concrete fixtures used to instantiate the theorems on explicit inputs:
a two-row galley behind a shared handle, a selection spanning both rows, an
empty selection, and two style records (blinking and non-blinking cursor).
-/

/-- A row of width 40 and height 20 that ends with a newline; its mesh has one
vertex and six indices, of which the first three are background (the glyph
marker sits at 3). -/
def demo_row_a : Row :=
  { x_offset := fun c => (c : Rat) * 10, size := (40, 20),
    ends_with_newline := true,
    visuals := { mesh := { vertices := [⟨(0, 0), 7⟩],
                           indices := [3, 4, 5, 6, 7, 8] },
                 mesh_bounds := ⟨(0, 0), (0, 0)⟩, glyph_index_start := 3 } }

/-- A row of width 30 and height 20 without trailing newline and with an empty
mesh. -/
def demo_row_b : Row :=
  { x_offset := fun c => (c : Rat) * 10, size := (30, 20),
    ends_with_newline := false,
    visuals := { mesh := { vertices := [], indices := [] },
                 mesh_bounds := ⟨(0, 0), (0, 0)⟩, glyph_index_start := 0 } }

/-- A two-row galley: characters 0-4 live on row 0 and the rest on row 1; the
first row's handle is shared, the second row's is not. -/
def demo_galley : Galley :=
  { rows := [⟨⟨demo_row_a, true⟩, (0, 0)⟩, ⟨⟨demo_row_b, false⟩, (0, 20)⟩],
    layout_from_cursor := fun i => if i ≤ 4 then ⟨0, i⟩ else ⟨1, i - 5⟩,
    layout_data := 42 }

/-- A shared handle to the demo galley. -/
def demo_arc : Arc Galley := ⟨demo_galley, true⟩

/-- A non-empty selection from character 1 (row 0, column 1) to character 7
(row 1, column 2). -/
def demo_sel : CCursorRange := ⟨1, 7⟩

/-- An empty selection (anchor = head). -/
def demo_empty_sel : CCursorRange := ⟨2, 2⟩

/-- A style record with a blinking cursor: on and off durations of half a
second each. -/
def demo_blink_visuals : Visuals :=
  { selection := ⟨1⟩,
    text_cursor :=
      { stroke := ⟨2, 3⟩, blink := true, on_duration := 1/2, off_duration := 1/2 } }

/-- The same style record with blinking disabled. -/
def demo_noblink_visuals : Visuals :=
  { selection := ⟨1⟩,
    text_cursor :=
      { stroke := ⟨2, 3⟩, blink := false, on_duration := 1/2, off_duration := 1/2 } }

/-- A cursor rectangle from (0, 0) to (2, 4). -/
def demo_rect : Rect := ⟨(0, 0), (2, 4)⟩

/-!
List-level lemmas about the index-buffer splice: reading and writing at an
offset given by the length of a leading segment, the one-position right
rotation performed by six consecutive swaps, and the net effect of the whole
backward swap loop.
-/

/-- Reading just past a leading segment returns the head of the tail
segment. -/
theorem getD_append_self (A B : List Nat) (d : Nat) :
    (A ++ B).getD A.length d = B.getD 0 d := by
  induction A with
  | nil => rfl
  | cons a A ih => simpa [List.getD] using ih

/-- Reading at offset k past a leading segment reads the tail segment at k. -/
theorem getD_append_add (A B : List Nat) (k d : Nat) :
    (A ++ B).getD (A.length + k) d = B.getD k d := by
  induction A with
  | nil => simp
  | cons a A ih =>
    have e : (a :: A).length + k = (A.length + k) + 1 := by
      simp [Nat.succ_add]
    rw [List.cons_append, e]
    simpa [List.getD] using ih

/-- Writing just past a leading segment overwrites the head of the tail
segment. -/
theorem set_append_len (A : List Nat) (x : Nat) (D : List Nat) (v : Nat) :
    (A ++ (x :: D)).set A.length v = A ++ (v :: D) := by
  induction A with
  | nil => rfl
  | cons a A ih => simp [ih]

/-- One swap of the backward loop, on a decomposed buffer: with a prefix A, an
element x at position A.length and the element y six slots later (five
elements of C in between), the swap exchanges x and y. -/
theorem vec_swap_decomp (A : List Nat) (x : Nat) (C : List Nat) (y : Nat)
    (B : List Nat) (hC : C.length = 5) :
    vec_swap (A ++ (x :: (C ++ (y :: B)))) A.length (A.length + 6) =
      A ++ (y :: (C ++ (x :: B))) := by
  unfold vec_swap
  have hx : (A ++ (x :: (C ++ (y :: B)))).getD A.length 0 = x := by
    rw [getD_append_self]; rfl
  have hy : (A ++ (x :: (C ++ (y :: B)))).getD (A.length + 6) 0 = y := by
    have e : A ++ (x :: (C ++ (y :: B))) = (A ++ (x :: C)) ++ (y :: B) := by simp
    have el : (A ++ (x :: C)).length = A.length + 6 := by
      rw [List.length_append, List.length_cons, hC]
    rw [e, ← el, getD_append_self]
    rfl
  rw [hx, hy, set_append_len A x (C ++ (y :: B)) y]
  have e : A ++ (y :: (C ++ (y :: B))) = (A ++ (y :: C)) ++ (y :: B) := by simp
  have el : (A ++ (y :: C)).length = A.length + 6 := by
    rw [List.length_append, List.length_cons, hC]
  rw [e, ← el, set_append_len (A ++ (y :: C)) y B x]
  simp

theorem rotr1_concat (C : List Nat) (y : Nat) : rotr1 (C ++ [y]) = y :: C := by
  simp [rotr1]

theorem rotr1_length (l : List Nat) : (rotr1 l).length = l.length := by
  induction l using List.reverseRecOn with
  | nil => rfl
  | append_singleton C y _ => simp [rotr1_concat]

theorem rotr1_iter_length (k : Nat) (l : List Nat) :
    (rotr1^[k] l).length = l.length := by
  induction k generalizing l with
  | zero => rfl
  | succ k ih => rw [Function.iterate_succ_apply, ih, rotr1_length]

/-- Net effect of the backward swap loop: on a buffer consisting of a prefix A
(ending at the splice offset), the glyph segment M, the six appended indices R
and a tail B, the loop of M.length swaps moves M six slots later and leaves a
rotated copy of R in the vacated slots. -/
theorem shift_back_spec (A : List Nat) (M : List Nat) :
    ∀ (R B : List Nat), R.length = 6 →
      shift_back (A ++ (M ++ (R ++ B))) A.length M.length =
        A ++ (rotr1^[M.length] R ++ (M ++ B)) := by
  induction M using List.reverseRecOn with
  | nil =>
    intro R B _
    simp [shift_back]
  | append_singleton M0 m ih =>
    intro R B hR
    have hR' : R ≠ [] := by
      intro h
      rw [h] at hR
      simp at hR
    obtain ⟨C, y, rfl⟩ : ∃ C y, R = C ++ [y] :=
      ⟨R.dropLast, R.getLast hR', (List.dropLast_append_getLast hR').symm⟩
    have hC : C.length = 5 := by
      rw [List.length_append, List.length_cons, List.length_nil] at hR
      omega
    have hlen : (M0 ++ [m]).length = M0.length + 1 := by simp
    rw [hlen]
    simp only [shift_back]
    have e1 : A ++ ((M0 ++ [m]) ++ ((C ++ [y]) ++ B)) =
        (A ++ M0) ++ (m :: (C ++ (y :: B))) := by simp
    have e2 : A.length + M0.length = (A ++ M0).length := by simp
    rw [e1, e2, vec_swap_decomp (A ++ M0) m C y B hC]
    have e3 : (A ++ M0) ++ (y :: (C ++ (m :: B))) =
        A ++ (M0 ++ ((y :: C) ++ (m :: B))) := by simp
    rw [e3, ih (y :: C) (m :: B) (by simp [hC])]
    have e4 : rotr1^[M0.length + 1] (C ++ [y]) = rotr1^[M0.length] (y :: C) := by
      rw [Function.iterate_succ_apply, rotr1_concat]
    have e5 : (M0 ++ [m]) ++ B = M0 ++ (m :: B) := by simp
    rw [e4, e5]

/-- Net effect of the slice overwrite on a buffer made of a prefix A, a middle
segment of the same length as the replacement, and a tail. -/
theorem write_slice_spec (A Mid T repl : List Nat) (h : Mid.length = repl.length) :
    write_slice (A ++ (Mid ++ T)) A.length repl = A ++ (repl ++ T) := by
  unfold write_slice
  have h1 : (A ++ (Mid ++ T)).take A.length = A := List.take_left' rfl
  have h2 : (A ++ (Mid ++ T)).drop (A.length + repl.length) = T := by
    have e : A ++ (Mid ++ T) = (A ++ Mid) ++ T := (List.append_assoc A Mid T).symm
    rw [e]
    exact List.drop_left' (by simp [h])
  rw [h1, h2, List.append_assoc]

/-- The copied-out slice of six entries appended after A is exactly those six
entries. -/
theorem copy_six_append_six (A : List Nat) (i : Nat) :
    copy_six (A ++ six_indices i) A.length = six_indices i := by
  have h0 := getD_append_self A (six_indices i) 0
  have h1 := getD_append_add A (six_indices i) 1 0
  have h2 := getD_append_add A (six_indices i) 2 0
  have h3 := getD_append_add A (six_indices i) 3 0
  have h4 := getD_append_add A (six_indices i) 4 0
  have h5 := getD_append_add A (six_indices i) 5 0
  simp only [copy_six, h0, h1, h2, h3, h4, h5]
  simp [six_indices, List.getD]

/-- The whole splice (append six, copy them out, shift the glyph segment back,
overwrite the vacated slots): the six appended entries end up exactly at the
splice offset, with the surrounding entries in their original relative
order. -/
theorem splice_core (ind six : List Nat) (gis : Nat) (hg : gis ≤ ind.length)
    (hsix : six.length = 6) :
    write_slice (shift_back (ind ++ six) gis (ind.length - gis)) gis six =
      ind.take gis ++ (six ++ ind.drop gis) := by
  have hA : (ind.take gis).length = gis := by
    rw [List.length_take]
    omega
  have hM : (ind.drop gis).length = ind.length - gis := List.length_drop gis ind
  have h1 : ind ++ six = ind.take gis ++ (ind.drop gis ++ (six ++ [])) := by
    rw [List.append_nil, ← List.append_assoc, List.take_append_drop]
  have hs := shift_back_spec (ind.take gis) (ind.drop gis) six [] hsix
  rw [hA, hM] at hs
  rw [h1, hs]
  have h2 := write_slice_spec (ind.take gis)
    (rotr1^[ind.length - gis] six) (ind.drop gis ++ []) six
    (by rw [rotr1_iter_length, hsix])
  rw [hA] at h2
  rw [h2]
  simp

/-!
Characterization of the loop body paint_row.
-/

/-- The loop body never changes the row's glyph_index_start marker. -/
theorem paint_row_gis (color : Color32) (row : Row) (ri : Nat)
    (mn mx : LayoutCursor) :
    (paint_row color row ri mn mx).1.visuals.glyph_index_start =
      row.visuals.glyph_index_start := rfl

/-- The loop body never changes the row's size, newline flag or layout
lookup. -/
theorem paint_row_row_fields (color : Color32) (row : Row) (ri : Nat)
    (mn mx : LayoutCursor) :
    (paint_row color row ri mn mx).1.size = row.size ∧
      (paint_row color row ri mn mx).1.ends_with_newline = row.ends_with_newline ∧
      (paint_row color row ri mn mx).1.x_offset = row.x_offset :=
  ⟨rfl, rfl, rfl⟩

/-- The copied-out selection_triangles are the six indices referencing the four
vertices pushed by add_colored_rect. -/
theorem paint_row_triangles (color : Color32) (row : Row) (ri : Nat)
    (mn mx : LayoutCursor) :
    (paint_row color row ri mn mx).2 =
      six_indices row.visuals.mesh.vertices.length :=
  copy_six_append_six row.visuals.mesh.indices row.visuals.mesh.vertices.length

/-- The vertices appended to the row mesh by the loop body are exactly the four
corners of the highlight rectangle of that row, in the selection colour. -/
theorem paint_row_vertices (color : Color32) (row : Row) (ri : Nat)
    (mn mx : LayoutCursor) :
    (paint_row color row ri mn mx).1.visuals.mesh.vertices =
      row.visuals.mesh.vertices ++
        [⟨(selection_rect row ri mn mx).min, color⟩,
         ⟨((selection_rect row ri mn mx).max.1,
           (selection_rect row ri mn mx).min.2), color⟩,
         ⟨((selection_rect row ri mn mx).min.1,
           (selection_rect row ri mn mx).max.2), color⟩,
         ⟨(selection_rect row ri mn mx).max, color⟩] := rfl

/-- Main effect of the loop body on the index buffer: the six new indices are
spliced in exactly at glyph_index_start, the entries before it stay in place
and the entries from it onwards follow in their original relative order. -/
theorem paint_row_indices (color : Color32) (row : Row) (ri : Nat)
    (mn mx : LayoutCursor)
    (h : row.visuals.glyph_index_start ≤ row.visuals.mesh.indices.length) :
    (paint_row color row ri mn mx).1.visuals.mesh.indices =
      row.visuals.mesh.indices.take row.visuals.glyph_index_start ++
        (six_indices row.visuals.mesh.vertices.length ++
          row.visuals.mesh.indices.drop row.visuals.glyph_index_start) := by
  show write_slice
      (shift_back
        (row.visuals.mesh.indices ++ six_indices row.visuals.mesh.vertices.length)
        row.visuals.glyph_index_start
        (row.visuals.mesh.indices.length - row.visuals.glyph_index_start))
      row.visuals.glyph_index_start
      (copy_six
        (row.visuals.mesh.indices ++ six_indices row.visuals.mesh.vertices.length)
        row.visuals.mesh.indices.length) = _
  rw [copy_six_append_six]
  exact splice_core _ _ _ h (by simp [six_indices])

/-- The loop body grows the index buffer by exactly six entries. -/
theorem paint_row_indices_length (color : Color32) (row : Row) (ri : Nat)
    (mn mx : LayoutCursor)
    (h : row.visuals.glyph_index_start ≤ row.visuals.mesh.indices.length) :
    (paint_row color row ri mn mx).1.visuals.mesh.indices.length =
      row.visuals.mesh.indices.length + 6 := by
  rw [paint_row_indices color row ri mn mx h]
  simp [six_indices, List.length_take, List.length_drop]
  omega

/-!
Characterization of the row loop of paint_text_selection as a fold over the
list of selected row indices.
-/

/-- Reading a list away from a just-written position is unaffected. -/
theorem getD_set_ne {α : Type} (l : List α) (i j : Nat) (v d : α) (h : i ≠ j) :
    (l.set i v).getD j d = l.getD j d := by
  simp [List.getD, List.getElem?_set_ne h]

/-- One loop iteration, written out: the visited placed row is updated in the
rows list, the record of the six copied-out indices is pushed onto the sink if
one is present, and the row handle's shared flag is logged. -/
theorem sel_step_eq (color : Color32) (mn mx : LayoutCursor) (g : Galley)
    (sink : Option (List RowVertexIndices)) (clones : List Bool) (a : Nat) :
    sel_step color mn mx (g, sink, clones) a =
      ({ g with rows := g.rows.set a (row_update color mn mx a (g.rows.getD a default)) },
       sink.map (fun v => v ++
         [⟨a, (paint_row color (g.rows.getD a default).row.value a mn mx).2⟩]),
       clones ++ [(g.rows.getD a default).row.shared]) := rfl

/-- The loop never touches the galley's fields other than its rows, and
preserves the number of rows. -/
theorem sel_fold_galley_fields (color : Color32) (mn mx : LayoutCursor)
    (l : List Nat) :
    ∀ st : Galley × Option (List RowVertexIndices) × List Bool,
      (l.foldl (sel_step color mn mx) st).1.layout_from_cursor =
          st.1.layout_from_cursor ∧
        (l.foldl (sel_step color mn mx) st).1.layout_data = st.1.layout_data ∧
        (l.foldl (sel_step color mn mx) st).1.rows.length = st.1.rows.length := by
  induction l with
  | nil => intro st; exact ⟨rfl, rfl, rfl⟩
  | cons ri l ih =>
    intro st
    rw [List.foldl_cons]
    have h := ih (sel_step color mn mx st ri)
    refine ⟨h.1, h.2.1, ?_⟩
    rw [h.2.2]
    show (st.1.rows.set ri _).length = st.1.rows.length
    simp

/-- Pointwise description of the rows after the loop over the index range
[a, a+n): a visited row is replaced by its row_update, every other row is
untouched. -/
theorem sel_fold_rows_get (color : Color32) (mn mx : LayoutCursor) :
    ∀ (n a : Nat) (g : Galley) (sink : Option (List RowVertexIndices))
      (clones : List Bool) (j : Nat),
      a + n ≤ g.rows.length →
      ((List.range' a n).foldl (sel_step color mn mx) (g, sink, clones)).1.rows[j]? =
        if a ≤ j ∧ j < a + n then
          (g.rows[j]?).map (row_update color mn mx j)
        else g.rows[j]? := by
  intro n
  induction n with
  | zero =>
    intro a g sink clones j _
    rw [if_neg (by omega)]
    rfl
  | succ n ih =>
    intro a g sink clones j h
    rw [List.range'_succ, List.foldl_cons, sel_step_eq]
    have hlen : (a + 1) + n ≤
        (g.rows.set a (row_update color mn mx a (g.rows.getD a default))).length := by
      simp only [List.length_set]
      omega
    rw [ih (a + 1) _ _ _ j hlen]
    have hrows : ({ g with rows := g.rows.set a (row_update color mn mx a (g.rows.getD a default)) } : Galley).rows =
        g.rows.set a (row_update color mn mx a (g.rows.getD a default)) := rfl
    rw [hrows]
    by_cases hj1 : a + 1 ≤ j ∧ j < a + 1 + n
    · rw [if_pos hj1, if_pos (by omega : a ≤ j ∧ j < a + (n + 1)),
        List.getElem?_set_ne (by omega : a ≠ j)]
    · rw [if_neg hj1]
      by_cases hja : j = a
      · subst hja
        rw [if_pos (by omega : j ≤ j ∧ j < j + (n + 1))]
        have hjl : j < g.rows.length := by omega
        rw [List.getElem?_set_self hjl, List.getElem?_eq_getElem hjl]
        simp [List.getD, List.getElem?_eq_getElem hjl]
      · rw [if_neg (by omega : ¬(a ≤ j ∧ j < a + (n + 1))),
          List.getElem?_set_ne (fun e => hja (e.symm))]

/-- The sink after the loop over [a, a+n): if one was supplied, it carries one
(row index, six copied-out indices) record per visited row, in visiting
order, computed from the rows as they were before the loop. -/
theorem sel_fold_sink (color : Color32) (mn mx : LayoutCursor) :
    ∀ (n a : Nat) (g : Galley) (sink : Option (List RowVertexIndices))
      (clones : List Bool),
      a + n ≤ g.rows.length →
      ((List.range' a n).foldl (sel_step color mn mx) (g, sink, clones)).2.1 =
        sink.map (fun v => v ++ (List.range' a n).map
          (fun ri => ⟨ri,
            (paint_row color (g.rows.getD ri default).row.value ri mn mx).2⟩)) := by
  intro n
  induction n with
  | zero =>
    intro a g sink clones _
    cases sink <;> simp
  | succ n ih =>
    intro a g sink clones h
    rw [List.range'_succ, List.foldl_cons, sel_step_eq]
    have hlen : (a + 1) + n ≤
        (g.rows.set a (row_update color mn mx a (g.rows.getD a default))).length := by
      simp only [List.length_set]
      omega
    rw [ih (a + 1) _ _ _ hlen]
    have hmap : (List.range' (a + 1) n).map
        (fun ri => (⟨ri, (paint_row color
          (((g.rows.set a (row_update color mn mx a (g.rows.getD a default))).getD
            ri default).row.value) ri mn mx).2⟩ : RowVertexIndices)) =
        (List.range' (a + 1) n).map
        (fun ri => ⟨ri, (paint_row color
          ((g.rows.getD ri default).row.value) ri mn mx).2⟩) := by
      apply List.map_congr_left
      intro ri hri
      have hri' : a + 1 ≤ ri := (List.mem_range'_1.mp hri).1
      rw [getD_set_ne _ _ _ _ _ (by omega : a ≠ ri)]
    rw [hmap]
    cases sink with
    | none => rfl
    | some v =>
      simp [List.range'_succ]

/-- The clone log after the loop over [a, a+n): one entry per visited row, in
visiting order, recording whether that row's handle was shared before the
loop. -/
theorem sel_fold_clones (color : Color32) (mn mx : LayoutCursor) :
    ∀ (n a : Nat) (g : Galley) (sink : Option (List RowVertexIndices))
      (clones : List Bool),
      a + n ≤ g.rows.length →
      ((List.range' a n).foldl (sel_step color mn mx) (g, sink, clones)).2.2 =
        clones ++ (List.range' a n).map
          (fun ri => (g.rows.getD ri default).row.shared) := by
  intro n
  induction n with
  | zero =>
    intro a g sink clones _
    simp
  | succ n ih =>
    intro a g sink clones h
    rw [List.range'_succ, List.foldl_cons, sel_step_eq]
    have hlen : (a + 1) + n ≤
        (g.rows.set a (row_update color mn mx a (g.rows.getD a default))).length := by
      simp only [List.length_set]
      omega
    rw [ih (a + 1) _ _ _ hlen]
    have hmap : (List.range' (a + 1) n).map
        (fun ri => ((g.rows.set a (row_update color mn mx a
          (g.rows.getD a default))).getD ri default).row.shared) =
        (List.range' (a + 1) n).map
        (fun ri => (g.rows.getD ri default).row.shared) := by
      apply List.map_congr_left
      intro ri hri
      have hri' : a + 1 ≤ ri := (List.mem_range'_1.mp hri).1
      rw [getD_set_ne _ _ _ _ _ (by omega : a ≠ ri)]
    rw [hmap]
    simp

/-!
Characterization of paint_text_selection itself.
-/

/-- For a non-empty selection, the returned galley handle holds the looped-over
galley state. -/
theorem pts_galley_value (galley : Arc Galley) (visuals : Visuals)
    (r : CCursorRange) (sink : Option (List RowVertexIndices))
    (h : r.is_empty = false) :
    (paint_text_selection galley visuals r sink).1.value =
      (sel_state galley visuals r sink).1 := by
  unfold paint_text_selection sel_state sel_mn sel_mx
  rw [h]
  rfl

/-- For a non-empty selection, the returned galley handle is exclusively
owned. -/
theorem pts_galley_shared (galley : Arc Galley) (visuals : Visuals)
    (r : CCursorRange) (sink : Option (List RowVertexIndices))
    (h : r.is_empty = false) :
    (paint_text_selection galley visuals r sink).1.shared = false := by
  unfold paint_text_selection
  rw [h]
  rfl

/-- For a non-empty selection, the returned sink is the looped-over sink
state. -/
theorem pts_sink (galley : Arc Galley) (visuals : Visuals)
    (r : CCursorRange) (sink : Option (List RowVertexIndices))
    (h : r.is_empty = false) :
    (paint_text_selection galley visuals r sink).2.1 =
      (sel_state galley visuals r sink).2.1 := by
  unfold paint_text_selection sel_state sel_mn sel_mx
  rw [h]
  rfl

/-- For a non-empty selection, the clone events are the galley handle's shared
flag and the looped-over row clone log. -/
theorem pts_events (galley : Arc Galley) (visuals : Visuals)
    (r : CCursorRange) (sink : Option (List RowVertexIndices))
    (h : r.is_empty = false) :
    (paint_text_selection galley visuals r sink).2.2 =
      ⟨galley.shared, (sel_state galley visuals r sink).2.2⟩ := by
  unfold paint_text_selection sel_state sel_mn sel_mx
  rw [h]
  rfl

/-- Projections of row_update. -/
theorem row_update_row_value (c : Color32) (mn mx : LayoutCursor) (ri : Nat)
    (pr : PlacedRow) :
    (row_update c mn mx ri pr).row.value = (paint_row c pr.row.value ri mn mx).1 := rfl

theorem row_update_pos (c : Color32) (mn mx : LayoutCursor) (ri : Nat)
    (pr : PlacedRow) : (row_update c mn mx ri pr).pos = pr.pos := rfl

/-- The placed row at a selected index ri after the loop is the row_update of
the placed row that was there before. -/
theorem sel_state_rows_getD (galley : Arc Galley) (visuals : Visuals)
    (r : CCursorRange) (sink : Option (List RowVertexIndices)) (ri : Nat)
    (h1 : (sel_mn galley r).row ≤ ri) (h2 : ri ≤ (sel_mx galley r).row)
    (hrows : (sel_mx galley r).row < galley.value.rows.length) :
    (sel_state galley visuals r sink).1.rows.getD ri default =
      row_update visuals.selection.bg_fill (sel_mn galley r) (sel_mx galley r) ri
        (galley.value.rows.getD ri default) := by
  unfold sel_state
  have hb : (sel_mn galley r).row +
      ((sel_mx galley r).row + 1 - (sel_mn galley r).row) ≤
        galley.value.rows.length := by omega
  have hget := sel_fold_rows_get visuals.selection.bg_fill (sel_mn galley r)
    (sel_mx galley r) ((sel_mx galley r).row + 1 - (sel_mn galley r).row)
    (sel_mn galley r).row galley.value sink [] ri hb
  rw [if_pos (by omega)] at hget
  have hri : ri < galley.value.rows.length := by omega
  rw [List.getElem?_eq_getElem hri] at hget
  have e1 : ∀ l : List PlacedRow, l.getD ri default = (l[ri]?).getD default := by
    intro l
    simp [List.getD]
  rw [e1, hget]
  simp [List.getD, List.getElem?_eq_getElem hri]

/-- A row outside the selected range is untouched by the loop. -/
theorem sel_state_rows_outside (galley : Arc Galley) (visuals : Visuals)
    (r : CCursorRange) (sink : Option (List RowVertexIndices)) (j : Nat)
    (hmnmx : (sel_mn galley r).row ≤ (sel_mx galley r).row)
    (hrows : (sel_mx galley r).row < galley.value.rows.length)
    (hj : j < (sel_mn galley r).row ∨ (sel_mx galley r).row < j) :
    (sel_state galley visuals r sink).1.rows[j]? = galley.value.rows[j]? := by
  unfold sel_state
  have hb : (sel_mn galley r).row +
      ((sel_mx galley r).row + 1 - (sel_mn galley r).row) ≤
        galley.value.rows.length := by omega
  have hget := sel_fold_rows_get visuals.selection.bg_fill (sel_mn galley r)
    (sel_mx galley r) ((sel_mx galley r).row + 1 - (sel_mn galley r).row)
    (sel_mn galley r).row galley.value sink [] j hb
  rw [if_neg (by omega)] at hget
  exact hget

/-- The sink contents after the loop, in terms of the pre-call rows. -/
theorem sel_state_sink_eq (galley : Arc Galley) (visuals : Visuals)
    (r : CCursorRange) (sink : Option (List RowVertexIndices))
    (hmnmx : (sel_mn galley r).row ≤ (sel_mx galley r).row)
    (hrows : (sel_mx galley r).row < galley.value.rows.length) :
    (sel_state galley visuals r sink).2.1 =
      sink.map (fun v => v ++
        (List.range' (sel_mn galley r).row
            ((sel_mx galley r).row + 1 - (sel_mn galley r).row)).map
          (fun ri => ⟨ri, (paint_row visuals.selection.bg_fill
            ((galley.value.rows.getD ri default).row.value) ri
            (sel_mn galley r) (sel_mx galley r)).2⟩)) := by
  unfold sel_state
  exact sel_fold_sink visuals.selection.bg_fill (sel_mn galley r)
    (sel_mx galley r) ((sel_mx galley r).row + 1 - (sel_mn galley r).row)
    (sel_mn galley r).row galley.value sink [] (by omega)

/-- The clone log after the loop: the pre-call shared flags of the selected
rows, in row order. -/
theorem sel_state_clones_eq (galley : Arc Galley) (visuals : Visuals)
    (r : CCursorRange) (sink : Option (List RowVertexIndices))
    (hmnmx : (sel_mn galley r).row ≤ (sel_mx galley r).row)
    (hrows : (sel_mx galley r).row < galley.value.rows.length) :
    (sel_state galley visuals r sink).2.2 =
      (List.range' (sel_mn galley r).row
          ((sel_mx galley r).row + 1 - (sel_mn galley r).row)).map
        (fun ri => (galley.value.rows.getD ri default).row.shared) := by
  unfold sel_state
  have h := sel_fold_clones visuals.selection.bg_fill (sel_mn galley r)
    (sel_mx galley r) ((sel_mx galley r).row + 1 - (sel_mn galley r).row)
    (sel_mn galley r).row galley.value sink [] (by omega)
  simpa using h

/-- The loop leaves the galley's non-rows fields and its number of rows
unchanged. -/
theorem sel_state_fields (galley : Arc Galley) (visuals : Visuals)
    (r : CCursorRange) (sink : Option (List RowVertexIndices)) :
    (sel_state galley visuals r sink).1.layout_from_cursor =
        galley.value.layout_from_cursor ∧
      (sel_state galley visuals r sink).1.layout_data =
        galley.value.layout_data ∧
      (sel_state galley visuals r sink).1.rows.length =
        galley.value.rows.length := by
  unfold sel_state
  exact sel_fold_galley_fields visuals.selection.bg_fill (sel_mn galley r)
    (sel_mx galley r) _ (galley.value, sink, [])

/-!
Claim theorems.
-/

/-- C4: for every galley and every cursor range with anchor = head,
paint_text_selection is a no-op: it performs no clone, returns the galley
handle unchanged (hence every row's mesh unchanged), and returns the output
sink unchanged even when one is supplied. -/
theorem claim_C4_empty_selection_noop (galley : Arc Galley) (visuals : Visuals)
    (r : CCursorRange) (sink : Option (List RowVertexIndices))
    (h : r.anchor = r.head) :
    paint_text_selection galley visuals r sink = (galley, sink, ⟨false, []⟩) := by
  unfold paint_text_selection
  have he : r.is_empty = true := by
    simp [CCursorRange.is_empty, h]
  rw [he]
  rfl

/-- Witness for C4 at a concrete shared galley, an anchor = head = 2 selection
and a supplied (non-empty) sink. -/
theorem claim_C4_witness :
    paint_text_selection demo_arc demo_blink_visuals demo_empty_sel
        (some [⟨9, [0, 1, 2, 2, 1, 3]⟩]) =
      (demo_arc, some [⟨9, [0, 1, 2, 2, 1, 3]⟩], ⟨false, []⟩) :=
  claim_C4_empty_selection_noop demo_arc demo_blink_visuals demo_empty_sel
    (some [⟨9, [0, 1, 2, 2, 1, 3]⟩]) rfl

/-- C8: paint_cursor_end unconditionally appends exactly one line segment,
from the top-center to the bottom-center of the given rectangle, with the
configured text-cursor stroke width and colour; the false-guarded roof/floor
branch contributes nothing. -/
theorem claim_C8_cursor_end_single_segment (painter : Painter)
    (visuals : Visuals) (cursor_rect : Rect) :
    paint_cursor_end painter visuals cursor_rect =
      painter ++ [⟨cursor_rect.center_top, cursor_rect.center_bottom,
        visuals.text_cursor.stroke.width, visuals.text_cursor.stroke.color⟩] := rfl

/-- C7: with blinking disabled, paint_text_cursor always draws the cursor
segment, for every elapsed time, and issues no repaint request. -/
theorem claim_C7_no_blink_always_draws (visuals : Visuals) (painter : Painter)
    (rect : Rect) (t : Rat) (hb : visuals.text_cursor.blink = false) :
    paint_text_cursor visuals painter rect t =
      (painter ++ [⟨rect.center_top, rect.center_bottom,
        visuals.text_cursor.stroke.width, visuals.text_cursor.stroke.color⟩],
       none) := by
  unfold paint_text_cursor
  rw [hb]
  rfl

/-- Witness for C7 with the non-blinking style at elapsed time 9/10. -/
theorem claim_C7_witness :
    paint_text_cursor demo_noblink_visuals [] demo_rect (9/10) =
      ([⟨demo_rect.center_top, demo_rect.center_bottom,
        demo_noblink_visuals.text_cursor.stroke.width,
        demo_noblink_visuals.text_cursor.stroke.color⟩], none) :=
  claim_C7_no_blink_always_draws demo_noblink_visuals [] demo_rect (9/10) rfl

/-- C1: for every affected row of a non-empty selection, paint_text_selection
splices the six new selection indices exactly at the row's glyph_index_start
offset: the final index buffer is the old indices before glyph_index_start,
then the six inserted indices, then the old indices from glyph_index_start
onward in their original relative order; and the row's glyph_index_start field
itself is unchanged. -/
theorem claim_C1_splice_at_glyph_index_start (galley : Arc Galley)
    (visuals : Visuals) (r : CCursorRange)
    (sink : Option (List RowVertexIndices)) (ri : Nat)
    (hne : r.is_empty = false)
    (h1 : (sel_mn galley r).row ≤ ri) (h2 : ri ≤ (sel_mx galley r).row)
    (hrows : (sel_mx galley r).row < galley.value.rows.length)
    (hgis : (galley.value.rows.getD ri default).row.value.visuals.glyph_index_start ≤
      (galley.value.rows.getD ri default).row.value.visuals.mesh.indices.length) :
    ((paint_text_selection galley visuals r sink).1.value.rows.getD ri
          default).row.value.visuals.mesh.indices =
        (galley.value.rows.getD ri default).row.value.visuals.mesh.indices.take
          (galley.value.rows.getD ri default).row.value.visuals.glyph_index_start ++
          (six_indices
            (galley.value.rows.getD ri
              default).row.value.visuals.mesh.vertices.length ++
            (galley.value.rows.getD ri default).row.value.visuals.mesh.indices.drop
              (galley.value.rows.getD ri
                default).row.value.visuals.glyph_index_start) ∧
      ((paint_text_selection galley visuals r sink).1.value.rows.getD ri
          default).row.value.visuals.glyph_index_start =
        (galley.value.rows.getD ri default).row.value.visuals.glyph_index_start := by
  rw [pts_galley_value galley visuals r sink hne,
    sel_state_rows_getD galley visuals r sink ri h1 h2 hrows,
    row_update_row_value]
  exact ⟨paint_row_indices _ _ _ _ _ hgis, paint_row_gis _ _ _ _ _⟩

/-- Witness for C1: the first row of the demo galley under the demo selection.
Its old index buffer is [3,4,5,6,7,8] with glyph marker 3 and one existing
vertex, so the spliced buffer is [3,4,5] ++ [1,2,3,3,2,4] ++ [6,7,8]. -/
theorem claim_C1_witness :
    ((paint_text_selection demo_arc demo_blink_visuals demo_sel none).1.value.rows.getD
          0 default).row.value.visuals.mesh.indices =
        (demo_arc.value.rows.getD 0 default).row.value.visuals.mesh.indices.take
          (demo_arc.value.rows.getD 0 default).row.value.visuals.glyph_index_start ++
          (six_indices
            (demo_arc.value.rows.getD 0
              default).row.value.visuals.mesh.vertices.length ++
            (demo_arc.value.rows.getD 0 default).row.value.visuals.mesh.indices.drop
              (demo_arc.value.rows.getD 0
                default).row.value.visuals.glyph_index_start) ∧
      ((paint_text_selection demo_arc demo_blink_visuals demo_sel none).1.value.rows.getD
          0 default).row.value.visuals.glyph_index_start =
        (demo_arc.value.rows.getD 0 default).row.value.visuals.glyph_index_start :=
  claim_C1_splice_at_glyph_index_start demo_arc demo_blink_visuals demo_sel none 0
    (by decide) (by decide) (by decide) (by decide) (by decide)

/-- C3: for a non-empty selection, paint_text_selection grows the index buffer
of each affected row's mesh by exactly six entries (one rectangle = two
triangles). -/
theorem claim_C3_six_new_indices_per_row (galley : Arc Galley)
    (visuals : Visuals) (r : CCursorRange)
    (sink : Option (List RowVertexIndices)) (ri : Nat)
    (hne : r.is_empty = false)
    (h1 : (sel_mn galley r).row ≤ ri) (h2 : ri ≤ (sel_mx galley r).row)
    (hrows : (sel_mx galley r).row < galley.value.rows.length)
    (hgis : (galley.value.rows.getD ri default).row.value.visuals.glyph_index_start ≤
      (galley.value.rows.getD ri default).row.value.visuals.mesh.indices.length) :
    ((paint_text_selection galley visuals r sink).1.value.rows.getD ri
          default).row.value.visuals.mesh.indices.length =
      (galley.value.rows.getD ri
          default).row.value.visuals.mesh.indices.length + 6 := by
  rw [pts_galley_value galley visuals r sink hne,
    sel_state_rows_getD galley visuals r sink ri h1 h2 hrows,
    row_update_row_value]
  exact paint_row_indices_length _ _ _ _ _ hgis

/-- Witness for C3: the second row of the demo galley under the demo selection
(an empty mesh grows to six indices). -/
theorem claim_C3_witness :
    ((paint_text_selection demo_arc demo_blink_visuals demo_sel none).1.value.rows.getD
          1 default).row.value.visuals.mesh.indices.length =
      (demo_arc.value.rows.getD 1
          default).row.value.visuals.mesh.indices.length + 6 :=
  claim_C3_six_new_indices_per_row demo_arc demo_blink_visuals demo_sel none 1
    (by decide) (by decide) (by decide) (by decide) (by decide)

/-- C6: when an output sink is supplied and the selection is non-empty,
paint_text_selection appends exactly one record per row index in the inclusive
selected range, in increasing row order, each carrying that row index and the
six index values inserted into that row's mesh. -/
theorem claim_C6_sink_records (galley : Arc Galley) (visuals : Visuals)
    (r : CCursorRange) (v0 : List RowVertexIndices)
    (hne : r.is_empty = false)
    (hmnmx : (sel_mn galley r).row ≤ (sel_mx galley r).row)
    (hrows : (sel_mx galley r).row < galley.value.rows.length) :
    (paint_text_selection galley visuals r (some v0)).2.1 =
      some (v0 ++ (List.range' (sel_mn galley r).row
          ((sel_mx galley r).row + 1 - (sel_mn galley r).row)).map
        (fun ri => ⟨ri, six_indices
          (galley.value.rows.getD ri
            default).row.value.visuals.mesh.vertices.length⟩)) := by
  rw [pts_sink galley visuals r (some v0) hne,
    sel_state_sink_eq galley visuals r (some v0) hmnmx hrows]
  have hm : (List.range' (sel_mn galley r).row
        ((sel_mx galley r).row + 1 - (sel_mn galley r).row)).map
      (fun ri => (⟨ri, (paint_row visuals.selection.bg_fill
        ((galley.value.rows.getD ri default).row.value) ri
        (sel_mn galley r) (sel_mx galley r)).2⟩ : RowVertexIndices)) =
      (List.range' (sel_mn galley r).row
        ((sel_mx galley r).row + 1 - (sel_mn galley r).row)).map
      (fun ri => ⟨ri, six_indices
        (galley.value.rows.getD ri
          default).row.value.visuals.mesh.vertices.length⟩) := by
    apply List.map_congr_left
    intro ri _
    rw [paint_row_triangles]
  rw [hm]
  rfl

/-- Witness for C6: the demo selection over the two-row demo galley with a
non-empty sink. -/
theorem claim_C6_witness :
    (paint_text_selection demo_arc demo_blink_visuals demo_sel
        (some [⟨9, [0, 0, 0, 0, 0, 0]⟩])).2.1 =
      some ([⟨9, [0, 0, 0, 0, 0, 0]⟩] ++
        (List.range' (sel_mn demo_arc demo_sel).row
            ((sel_mx demo_arc demo_sel).row + 1 -
              (sel_mn demo_arc demo_sel).row)).map
          (fun ri => ⟨ri, six_indices
            (demo_arc.value.rows.getD ri
              default).row.value.visuals.mesh.vertices.length⟩)) :=
  claim_C6_sink_records demo_arc demo_blink_visuals demo_sel
    [⟨9, [0, 0, 0, 0, 0, 0]⟩] (by decide) (by decide) (by decide)

/-- C9: for a non-empty selection, paint_text_selection obtains exclusive
ownership of the galley and of each affected row: the galley handle is cloned
exactly when it was shared, each affected row's handle is cloned exactly when
that row's handle was shared (in row order), and the returned handle is
exclusively owned, so other holders of the pre-call handles keep the pre-call
geometry. -/
theorem claim_C9_copy_on_write (galley : Arc Galley) (visuals : Visuals)
    (r : CCursorRange) (sink : Option (List RowVertexIndices))
    (hne : r.is_empty = false)
    (hmnmx : (sel_mn galley r).row ≤ (sel_mx galley r).row)
    (hrows : (sel_mx galley r).row < galley.value.rows.length) :
    (paint_text_selection galley visuals r sink).2.2.galley_cloned =
        galley.shared ∧
      (paint_text_selection galley visuals r sink).2.2.rows_cloned =
        (List.range' (sel_mn galley r).row
            ((sel_mx galley r).row + 1 - (sel_mn galley r).row)).map
          (fun ri => (galley.value.rows.getD ri default).row.shared) ∧
      (paint_text_selection galley visuals r sink).1.shared = false := by
  refine ⟨?_, ?_, pts_galley_shared galley visuals r sink hne⟩
  · rw [pts_events galley visuals r sink hne]
  · rw [pts_events galley visuals r sink hne]
    exact sel_state_clones_eq galley visuals r sink hmnmx hrows

/-- Witness for C9: the demo galley handle is shared and its first row handle
is shared while the second is not. -/
theorem claim_C9_witness :
    (paint_text_selection demo_arc demo_blink_visuals demo_sel none).2.2.galley_cloned =
        demo_arc.shared ∧
      (paint_text_selection demo_arc demo_blink_visuals demo_sel none).2.2.rows_cloned =
        (List.range' (sel_mn demo_arc demo_sel).row
            ((sel_mx demo_arc demo_sel).row + 1 -
              (sel_mn demo_arc demo_sel).row)).map
          (fun ri => (demo_arc.value.rows.getD ri default).row.shared) ∧
      (paint_text_selection demo_arc demo_blink_visuals demo_sel none).1.shared =
        false :=
  claim_C9_copy_on_write demo_arc demo_blink_visuals demo_sel none
    (by decide) (by decide) (by decide)

/-- C10: for a non-empty selection, paint_text_selection leaves every row
outside the selected inclusive row range, and every galley field other than
its rows (and the number of rows), completely unchanged. -/
theorem claim_C10_outside_rows_untouched (galley : Arc Galley)
    (visuals : Visuals) (r : CCursorRange)
    (sink : Option (List RowVertexIndices))
    (hne : r.is_empty = false)
    (hmnmx : (sel_mn galley r).row ≤ (sel_mx galley r).row)
    (hrows : (sel_mx galley r).row < galley.value.rows.length) :
    (∀ j, j < (sel_mn galley r).row ∨ (sel_mx galley r).row < j →
        (paint_text_selection galley visuals r sink).1.value.rows[j]? =
          galley.value.rows[j]?) ∧
      (paint_text_selection galley visuals r sink).1.value.layout_from_cursor =
        galley.value.layout_from_cursor ∧
      (paint_text_selection galley visuals r sink).1.value.layout_data =
        galley.value.layout_data ∧
      (paint_text_selection galley visuals r sink).1.value.rows.length =
        galley.value.rows.length := by
  rw [pts_galley_value galley visuals r sink hne]
  exact ⟨fun j hj => sel_state_rows_outside galley visuals r sink j hmnmx hrows hj,
    (sel_state_fields galley visuals r sink).1,
    (sel_state_fields galley visuals r sink).2.1,
    (sel_state_fields galley visuals r sink).2.2⟩

/-- Witness for C10: a selection covering only row 0 of the demo galley leaves
row 1 and the galley's other fields unchanged. -/
theorem claim_C10_witness :
    (∀ j, j < (sel_mn demo_arc ⟨1, 3⟩).row ∨ (sel_mx demo_arc ⟨1, 3⟩).row < j →
        (paint_text_selection demo_arc demo_blink_visuals ⟨1, 3⟩ none).1.value.rows[j]? =
          demo_arc.value.rows[j]?) ∧
      (paint_text_selection demo_arc demo_blink_visuals ⟨1, 3⟩ none).1.value.layout_from_cursor =
        demo_arc.value.layout_from_cursor ∧
      (paint_text_selection demo_arc demo_blink_visuals ⟨1, 3⟩ none).1.value.layout_data =
        demo_arc.value.layout_data ∧
      (paint_text_selection demo_arc demo_blink_visuals ⟨1, 3⟩ none).1.value.rows.length =
        demo_arc.value.rows.length :=
  claim_C10_outside_rows_untouched demo_arc demo_blink_visuals ⟨1, 3⟩ none
    (by decide) (by decide) (by decide)

/-- C2: for every row ri in the inclusive selected row range, the highlight
rectangle spans from left = x_offset(min.column) when ri is the first selected
row and 0 otherwise, to right = x_offset(max.column) when ri is the last
selected row and otherwise the row's full width plus half the row's height
when the row ends with a newline; vertically from 0 to the row's height. -/
theorem claim_C2_highlight_rect_edges (row : Row) (ri : Nat)
    (mn mx : LayoutCursor) (_h1 : mn.row ≤ ri) (_h2 : ri ≤ mx.row) :
    selection_rect row ri mn mx =
      Rect.from_min_max
        (pos2 (if ri = mn.row then row.x_offset mn.column else 0) 0)
        (pos2 (if ri = mx.row then row.x_offset mx.column
          else row.size.1 +
            (if row.ends_with_newline then row.height / 2 else 0))
          row.height) := by
  unfold selection_rect selection_left selection_right Rect.from_min_max pos2
    Row.height
  simp [beq_iff_eq]

/-- Witness for C2: the first (and not last) selected row of the demo galley,
fully selected from column 0. -/
theorem claim_C2_witness :
    (⟨0, 0⟩ : LayoutCursor).row ≤ 0 ∧ 0 ≤ (⟨1, 2⟩ : LayoutCursor).row ∧
      selection_rect demo_row_a 0 ⟨0, 0⟩ ⟨1, 2⟩ =
        Rect.from_min_max
          (pos2 (if 0 = (⟨0, 0⟩ : LayoutCursor).row then
            demo_row_a.x_offset (⟨0, 0⟩ : LayoutCursor).column else 0) 0)
          (pos2 (if 0 = (⟨1, 2⟩ : LayoutCursor).row then
            demo_row_a.x_offset (⟨1, 2⟩ : LayoutCursor).column
            else demo_row_a.size.1 +
              (if demo_row_a.ends_with_newline then demo_row_a.height / 2 else 0))
            demo_row_a.height) :=
  ⟨by decide, by decide,
    claim_C2_highlight_rect_edges demo_row_a 0 ⟨0, 0⟩ ⟨1, 2⟩ (by decide) (by decide)⟩

/-- Concrete evaluation of the newline sliver of the demo row: width 40,
height 20, ends_with_newline, fully selected and not the last selected row
gives the highlight rectangle (0, 0) - (50, 20). -/
theorem selection_rect_newline_sliver_demo :
    selection_rect demo_row_a 0 ⟨0, 0⟩ ⟨1, 2⟩ = ⟨(0, 0), (50, 20)⟩ := by
  unfold selection_rect selection_left selection_right Rect.from_min_max pos2
    Row.height demo_row_a
  norm_num

/-- C5 counterexample: with on = off = 0.5 and t = 0.7 the phase is 0.7, not
0.2 as the claim's concrete example states, and the cursor is NOT drawn (the
painter stays empty) while the repaint is requested after 0.3 s. -/
theorem claim_C5_counterexample :
    fmod (7/10) (demo_blink_visuals.text_cursor.on_duration +
        demo_blink_visuals.text_cursor.off_duration) = 7/10 ∧
      ¬ fmod (7/10) (demo_blink_visuals.text_cursor.on_duration +
          demo_blink_visuals.text_cursor.off_duration) <
        demo_blink_visuals.text_cursor.on_duration ∧
      paint_text_cursor demo_blink_visuals [] demo_rect (7/10) =
        ([], some (3/10)) := by
  have hsum : demo_blink_visuals.text_cursor.on_duration +
      demo_blink_visuals.text_cursor.off_duration = 1 := by
    norm_num [demo_blink_visuals]
  have hmod : fmod ((7 : Rat)/10) 1 = 7/10 := by
    unfold fmod ratTrunc
    rw [if_pos (by norm_num : (0 : Rat) ≤ 7/10/1)]
    norm_num
  have hon : demo_blink_visuals.text_cursor.on_duration = 1/2 := rfl
  have hnotlt : ¬ fmod (7/10) (demo_blink_visuals.text_cursor.on_duration +
      demo_blink_visuals.text_cursor.off_duration) <
        demo_blink_visuals.text_cursor.on_duration := by
    rw [hsum, hmod, hon]
    norm_num
  refine ⟨by rw [hsum, hmod], hnotlt, ?_⟩
  simp only [paint_text_cursor]
  rw [if_pos (show demo_blink_visuals.text_cursor.blink = true from rfl),
    if_neg hnotlt, hsum, hmod]
  rw [show (1 : Rat) - 7/10 = 3/10 from by norm_num]

/-- C5 (amended): with blinking enabled, the phase is t mod (on + off); if
phase < on the cursor segment is drawn and a repaint is requested after
on - phase seconds, otherwise nothing is drawn and a repaint is requested
after (on + off) - phase seconds.  (At on = off = 0.5 this gives: t = 0.7 has
phase 0.7, not drawn, wake-up 0.3 s; t = 1.2 has phase 0.2, drawn, wake-up
0.3 s.) -/
theorem claim_C5_amended_blink_rule (visuals : Visuals) (painter : Painter)
    (rect : Rect) (t : Rat) (hb : visuals.text_cursor.blink = true) :
    (fmod t (visuals.text_cursor.on_duration + visuals.text_cursor.off_duration) <
        visuals.text_cursor.on_duration →
      paint_text_cursor visuals painter rect t =
        (painter ++ [⟨rect.center_top, rect.center_bottom,
          visuals.text_cursor.stroke.width, visuals.text_cursor.stroke.color⟩],
         some (visuals.text_cursor.on_duration -
           fmod t (visuals.text_cursor.on_duration +
             visuals.text_cursor.off_duration)))) ∧
      (visuals.text_cursor.on_duration ≤
          fmod t (visuals.text_cursor.on_duration +
            visuals.text_cursor.off_duration) →
        paint_text_cursor visuals painter rect t =
          (painter,
           some (visuals.text_cursor.on_duration +
               visuals.text_cursor.off_duration -
             fmod t (visuals.text_cursor.on_duration +
               visuals.text_cursor.off_duration)))) := by
  constructor
  · intro h
    simp only [paint_text_cursor]
    rw [if_pos hb, if_pos h]
    rfl
  · intro h
    simp only [paint_text_cursor]
    rw [if_pos hb, if_neg (not_lt.mpr h)]

/-- Witness for C5 (amended) at the blinking demo style and t = 1.2. -/
theorem claim_C5_witness :
    (fmod (12/10) (demo_blink_visuals.text_cursor.on_duration +
        demo_blink_visuals.text_cursor.off_duration) <
        demo_blink_visuals.text_cursor.on_duration →
      paint_text_cursor demo_blink_visuals [] demo_rect (12/10) =
        ([] ++ [⟨demo_rect.center_top, demo_rect.center_bottom,
          demo_blink_visuals.text_cursor.stroke.width,
          demo_blink_visuals.text_cursor.stroke.color⟩],
         some (demo_blink_visuals.text_cursor.on_duration -
           fmod (12/10) (demo_blink_visuals.text_cursor.on_duration +
             demo_blink_visuals.text_cursor.off_duration)))) ∧
      (demo_blink_visuals.text_cursor.on_duration ≤
          fmod (12/10) (demo_blink_visuals.text_cursor.on_duration +
            demo_blink_visuals.text_cursor.off_duration) →
        paint_text_cursor demo_blink_visuals [] demo_rect (12/10) =
          ([],
           some (demo_blink_visuals.text_cursor.on_duration +
               demo_blink_visuals.text_cursor.off_duration -
             fmod (12/10) (demo_blink_visuals.text_cursor.on_duration +
               demo_blink_visuals.text_cursor.off_duration)))) :=
  claim_C5_amended_blink_rule demo_blink_visuals [] demo_rect (12/10) rfl

/-- Concrete evaluation of the corrected blink example at t = 1.2: the phase
is 0.2, the cursor is drawn, and the repaint is requested after 0.3 s. -/
theorem paint_text_cursor_example_t12 :
    fmod ((12 : Rat)/10) 1 = 1/5 ∧
      paint_text_cursor demo_blink_visuals [] demo_rect (12/10) =
        ([⟨demo_rect.center_top, demo_rect.center_bottom, 2, 3⟩],
         some (3/10)) := by
  have hsum : demo_blink_visuals.text_cursor.on_duration +
      demo_blink_visuals.text_cursor.off_duration = 1 := by
    norm_num [demo_blink_visuals]
  have hmod : fmod ((12 : Rat)/10) 1 = 1/5 := by
    unfold fmod ratTrunc
    rw [if_pos (by norm_num : (0 : Rat) ≤ 12/10/1)]
    norm_num
  refine ⟨hmod, ?_⟩
  simp only [paint_text_cursor]
  rw [if_pos (show demo_blink_visuals.text_cursor.blink = true from rfl), hsum,
    hmod,
    if_pos (show (1 : Rat)/5 < demo_blink_visuals.text_cursor.on_duration from
      by rw [show demo_blink_visuals.text_cursor.on_duration = 1/2 from rfl]; norm_num)]
  rw [show demo_blink_visuals.text_cursor.on_duration - (1 : Rat)/5 = 3/10 from
    by rw [show demo_blink_visuals.text_cursor.on_duration = 1/2 from rfl]; norm_num]
  rfl

end Egui
